import Mathlib

/-!
Verification development for the learner-progress subsystem of the Kyorda
chemistry-tutor web application (main application component, TypeScript).

The embedding translates the `LearningAnalytics` class (event log, concept
performance aggregator, learner profile estimator, recommendation generator)
and the navigation-gate handlers (`calculateKnowledgeCheckScore`,
`triggerAdaptiveHelp`, `handleNext`, `handleConceptComplete`, and the two
remediation-override button handlers) into pure Lean functions.

Modelling conventions:
* JavaScript numbers are modelled by exact rationals `ℚ`; results of
  divisions, which in JavaScript can be `NaN` or `±Infinity`, live in the
  type `JsNum` below, with division by zero following the JavaScript rules
  (`0/0 = NaN`, `c/0 = Infinity` for `c > 0`).  All quantities fed into the
  subsystem (confidence levels, question counts, millisecond durations) are
  finite, so plain `ℚ` suffices everywhere except for the stored
  `questionAccuracy` aggregate, whose per-attempt ratio
  `questionsCorrect / questionsTotal` is an unguarded division.
* Wall-clock values (`Date.now()` timestamps, ISO time strings) are not
  modelled; where the source derives a duration from the clock
  (`timeSpent = Date.now() - conceptStartTime`) the handler takes the
  duration as an explicit argument.  The `timestamp` fields of attempts,
  events and history entries are dropped for the same reason.
* JavaScript objects used as string-keyed maps (`conceptPerformance`,
  `knowledgeCheckAnswers`) are modelled as association lists in insertion
  order, matching the enumeration order of `Object.entries` /
  `Object.values` for string keys.
-/

namespace Kyorda

/-- Result type of a JavaScript floating-point computation: a finite value
(idealised as an exact rational), positive or negative infinity, or `NaN`. -/
inductive JsNum where
  | nan : JsNum
  | inf : JsNum
  | ninf : JsNum
  | num : ℚ → JsNum
deriving DecidableEq, Repr

namespace JsNum

/-- Addition of JavaScript numbers: `NaN` propagates, `Infinity + (-Infinity)`
is `NaN`, infinities absorb finite values. -/
def add : JsNum → JsNum → JsNum
  | nan, _ => nan
  | _, nan => nan
  | inf, ninf => nan
  | ninf, inf => nan
  | inf, _ => inf
  | _, inf => inf
  | ninf, _ => ninf
  | _, ninf => ninf
  | num a, num b => num (a + b)

/-- Division of two finite JavaScript numbers: `0/0 = NaN`, `c/0 = ±Infinity`
according to the sign of `c` (the positive zero case of JavaScript). -/
def divRat (a b : ℚ) : JsNum :=
  if b = 0 then
    if a = 0 then nan else if 0 < a then inf else ninf
  else num (a / b)

/-- Division of a JavaScript number by a finite value (used to divide an
accumulated sum by a list length). -/
def divq : JsNum → ℚ → JsNum
  | nan, _ => nan
  | inf, q => if q < 0 then ninf else inf
  | ninf, q => if q < 0 then inf else ninf
  | num a, q => divRat a q

/-- JavaScript comparison `x >= c` with a finite right-hand side; false on
`NaN`. -/
def geq : JsNum → ℚ → Bool
  | nan, _ => false
  | inf, _ => true
  | ninf, _ => false
  | num a, c => decide (c ≤ a)

/-- JavaScript comparison `x < c` with a finite right-hand side; false on
`NaN`. -/
def ltq : JsNum → ℚ → Bool
  | nan, _ => false
  | inf, _ => false
  | ninf, _ => true
  | num a, c => decide (a < c)

/-- Membership of a JavaScript number in the closed unit interval; `NaN` and
the infinities are not members. -/
def memUnitInterval : JsNum → Prop
  | num q => 0 ≤ q ∧ q ≤ 1
  | _ => False

instance : DecidablePred memUnitInterval := by
  intro x
  cases x <;> simp only [memUnitInterval] <;> infer_instance

end JsNum

/-- Interface `ConceptAttempt` (the `timestamp` field, taken from the wall
clock, is omitted from the model). -/
structure ConceptAttempt where
  confidence : ℚ
  questionsCorrect : ℚ
  questionsTotal : ℚ
  timeSpent : ℚ
  usedChat : Bool
  triggeredAdaptiveHelp : Bool
deriving DecidableEq, Repr

/-- Interface `ConceptPerformance`.  `questionAccuracy` is a `JsNum` because
its computation divides by `questionsTotal` without a zero guard. -/
structure ConceptPerformance where
  attempts : List ConceptAttempt
  totalTime : ℚ
  averageConfidence : ℚ
  questionAccuracy : JsNum
  revisits : ℕ
deriving DecidableEq, Repr

/-- Fresh performance record created by `trackConceptAttempt` when a concept
id is seen for the first time. -/
def emptyPerf : ConceptPerformance :=
  { attempts := [], totalTime := 0, averageConfidence := 0
    questionAccuracy := JsNum.num 0, revisits := 0 }

/-- Per-attempt accuracy ratio `a.questionsCorrect / a.questionsTotal` as
computed inside the `reduce` of `trackConceptAttempt`. -/
def attemptRatio (a : ConceptAttempt) : JsNum :=
  JsNum.divRat a.questionsCorrect a.questionsTotal

/-- Left fold of `reduce((sum, a) => sum + a.confidence, 0)`. -/
def sumConfidence (l : List ConceptAttempt) : ℚ :=
  l.foldl (fun s a => s + a.confidence) 0

/-- Left fold of `reduce((sum, a) => sum + (a.questionsCorrect / a.questionsTotal), 0)`. -/
def sumRatios (l : List ConceptAttempt) : JsNum :=
  l.foldl (fun s a => s.add (attemptRatio a)) (JsNum.num 0)

/-- Method `LearningAnalytics.trackConceptAttempt`, restricted to the record
of one concept: pushes the attempt and recomputes the aggregates. -/
def trackConceptAttempt (perf : ConceptPerformance) (a : ConceptAttempt) :
    ConceptPerformance :=
  let attempts := perf.attempts ++ [a]
  { attempts := attempts
    totalTime := perf.totalTime + a.timeSpent
    averageConfidence := sumConfidence attempts / (attempts.length : ℚ)
    questionAccuracy := (sumRatios attempts).divq (attempts.length : ℚ)
    revisits := if attempts.length > 1 then perf.revisits + 1 else perf.revisits }

/-- Association-list lookup, first match wins; models indexing a JavaScript
object whose string keys are unique. -/
def alookup {β : Type} : List (String × β) → String → Option β
  | [], _ => none
  | (k, v) :: rest, c => if k = c then some v else alookup rest c

/-- Replacement of the value stored under an existing key, in place; models
mutating the object returned by a successful lookup. -/
def areplace {β : Type} : List (String × β) → String → β → List (String × β)
  | [], _, _ => []
  | (k, v) :: rest, c, w => if k = c then (k, w) :: rest else (k, v) :: areplace rest c w

/-- Field `conceptPerformance` of `LearningAnalytics`: a string-keyed map in
insertion order. -/
abbrev PerfMap : Type := List (String × ConceptPerformance)

/-- Map-level part of `LearningAnalytics.trackConceptAttempt`: creates the
entry on first sight of the concept id (appended, as a fresh JavaScript
object key), then updates it via the aggregate recomputation. -/
def trackPerfMap (m : PerfMap) (conceptId : String) (a : ConceptAttempt) : PerfMap :=
  match alookup m conceptId with
  | some perf => areplace m conceptId (trackConceptAttempt perf a)
  | none => m ++ [(conceptId, trackConceptAttempt emptyPerf a)]

/-- Interface `LearnerProfile`; the `string | null` fields become `Option`. -/
structure LearnerProfile where
  learningStyle : Option String
  pacePreference : Option String
  strengthAreas : List String
  struggleAreas : List String
  confidencePattern : List ℚ
  engagementLevel : String
  preferredExplanationType : Option String
deriving DecidableEq, Repr

/-- Profile installed by the `LearningAnalytics` constructor. -/
def initialProfile : LearnerProfile :=
  { learningStyle := none, pacePreference := none, strengthAreas := []
    struggleAreas := [], confidencePattern := [], engagementLevel := "medium"
    preferredExplanationType := none }

/-- Interface `AnalyticsEvent`.  Of the free-form `data` payload only the
`level` field is ever read back by the estimator (for `confidence_set`
events), so the model records the event type and that one field; `timestamp`,
`sessionId` and `timeInSession` are wall-clock bookkeeping and are omitted. -/
structure AEvent where
  eventType : String
  dataLevel : ℚ
deriving DecidableEq, Repr

/-- Last `n` elements of a list; models `Array.prototype.slice(-n)` (the
whole list when it is shorter than `n`). -/
def lastN {α : Type} (n : ℕ) (l : List α) : List α :=
  l.drop (l.length - n)

/-- Method `LearningAnalytics.updateStrengthsAndStruggles`: one pass over
`Object.entries(this.conceptPerformance)` pushing each concept id into the
strengths list (average confidence at least 4 and accuracy at least 0.8) or
else, when average confidence is at most 2 or accuracy is below 0.5, into
the struggles list.  Returns the two freshly rebuilt lists. -/
def updateStrengthsAndStruggles (m : PerfMap) : List String × List String :=
  m.foldl
    (fun acc e =>
      if decide (4 ≤ e.2.averageConfidence) && e.2.questionAccuracy.geq (4/5) then
        (acc.1 ++ [e.1], acc.2)
      else if decide (e.2.averageConfidence ≤ 2) || e.2.questionAccuracy.ltq (1/2) then
        (acc.1, acc.2 ++ [e.1])
      else acc)
    ([], [])

/-- Method `LearningAnalytics.calculateAverageTimePerConcept`: mean of the
`totalTime` fields over `Object.values(this.conceptPerformance)`, with a
default of 90000 ms when no concept has been attempted. -/
def calculateAverageTimePerConcept (m : PerfMap) : ℚ :=
  let conceptTimes := m.map (fun e => e.2.totalTime)
  if conceptTimes.length = 0 then 90000
  else conceptTimes.foldl (· + ·) 0 / (conceptTimes.length : ℚ)

/-- Method `LearningAnalytics.analyzePatterns`: recomputes pace, learning
style, strengths/struggles and (when at least one `confidence_set` event has
been logged) the engagement level, from the event log and the performance
map.  The unused local `recentEvents = this.events.slice(-20)` of the source
is dead code and not modelled. -/
def analyzePatterns (events : List AEvent) (m : PerfMap) (lp : LearnerProfile) :
    LearnerProfile :=
  let avgTimePerConcept := calculateAverageTimePerConcept m
  let pace : String :=
    if avgTimePerConcept > 180000 then "slow"
    else if avgTimePerConcept < 60000 then "fast"
    else "medium"
  let visualInteractions :=
    (events.filter (fun e => e.eventType = "visual_interaction" ∨ e.eventType = "3d_rotation")).length
  let chatInteractions := (events.filter (fun e => e.eventType = "chat_message")).length
  let style : String :=
    if visualInteractions > chatInteractions * 2 then "visual"
    else if chatInteractions > visualInteractions * 2 then "reading"
    else "mixed"
  let areas := updateStrengthsAndStruggles m
  let recentConfidences :=
    lastN 5 ((events.filter (fun e => e.eventType = "confidence_set")).map (fun e => e.dataLevel))
  let lp :=
    { lp with pacePreference := some pace, learningStyle := some style
              strengthAreas := areas.1, struggleAreas := areas.2 }
  if recentConfidences.length > 0 then
    let avgConfidence := recentConfidences.foldl (· + ·) 0 / (recentConfidences.length : ℚ)
    { lp with engagementLevel :=
        if avgConfidence ≥ 4 then "high"
        else if avgConfidence ≤ 2 then "low"
        else "medium" }
  else lp

/-- Interface `Recommendation`. -/
structure Recommendation where
  type : String
  message : String
  priority : String
deriving DecidableEq, Repr

/-- Method `LearningAnalytics.getRecommendations`: three conditional pushes,
in source order. -/
def getRecommendations (lp : LearnerProfile) : List Recommendation :=
  let recommendations : List Recommendation := []
  let recommendations :=
    if lp.struggleAreas.length > 0 then
      recommendations ++
        [{ type := "review"
           message := "Consider reviewing: " ++ String.intercalate ", " lp.struggleAreas
           priority := "high" }]
    else recommendations
  let recommendations :=
    if lp.pacePreference = some "slow" then
      recommendations ++
        [{ type := "pace"
           message := "Take your time - depth of understanding is more important than speed"
           priority := "medium" }]
    else recommendations
  let recommendations :=
    if lp.learningStyle = some "visual" then
      recommendations ++
        [{ type := "style"
           message := "You learn well visually - spend more time with 3D models"
           priority := "low" }]
    else recommendations
  recommendations

/-- Mutable state of a `LearningAnalytics` instance (the `sessionId` and
`startTime` fields are wall-clock identifiers and are omitted). -/
structure Analytics where
  events : List AEvent
  conceptPerformance : PerfMap
  learnerProfile : LearnerProfile
deriving Repr

/-- State built by the `LearningAnalytics` constructor. -/
def initialAnalytics : Analytics :=
  { events := [], conceptPerformance := [], learnerProfile := initialProfile }

/-- Method `LearningAnalytics.trackEvent`: appends the event, then reruns
`analyzePatterns` on the grown log. -/
def Analytics.trackEvent (a : Analytics) (eventType : String) (dataLevel : ℚ) :
    Analytics :=
  let events := a.events ++ [{ eventType := eventType, dataLevel := dataLevel }]
  { a with events := events
           learnerProfile := analyzePatterns events a.conceptPerformance a.learnerProfile }

/-- Method `LearningAnalytics.trackConceptAttempt` at the level of the whole
analytics state: updates the performance map, then logs a `concept_attempt`
event (whose payload has no `level` field; the model stores 0 there). -/
def Analytics.trackConceptAttempt (a : Analytics) (conceptId : String)
    (att : ConceptAttempt) : Analytics :=
  let m := trackPerfMap a.conceptPerformance conceptId att
  Analytics.trackEvent { a with conceptPerformance := m } "concept_attempt" 0

/-- Interface `KnowledgeCheck` of the concept catalog. -/
structure KnowledgeCheck where
  id : String
  question : String
  options : List String
  correct : ℕ
  explanation : String
deriving DecidableEq, Repr, Inhabited

/-- Interface `Concept` of the concept catalog; the display-only fields
`wisdom`, `explanation`, `visualType` and `orbitalType` (prose and a render
tag never read by the progress logic) are omitted. -/
structure Concept where
  id : String
  title : String
  knowledgeChecks : List KnowledgeCheck
deriving DecidableEq, Repr, Inhabited

/-- Interface `Module` of the concept catalog. -/
structure Module where
  title : String
  concepts : List Concept
deriving DecidableEq, Repr, Inhabited

/-- Interface `ChatMessage`. -/
structure ChatMessage where
  role : String
  content : String
deriving DecidableEq, Repr

/-- Entry of `progress.conceptHistory` (the ISO `timestamp` string is
omitted as wall-clock data). -/
structure ProgressEntry where
  id : String
  confidence : ℚ
  knowledgeCheckScore : ℚ
deriving DecidableEq, Repr

/-- Interface `Progress`. -/
structure Progress where
  completedConcepts : ℕ
  totalConcepts : ℕ
  confidenceScores : List ℚ
  strengths : List String
  needsWork : List String
  conceptHistory : List ProgressEntry
deriving DecidableEq, Repr

/-- Modelled shape of the `AdaptiveHelpContent` record built by
`triggerAdaptiveHelp`.  The source fills four prose fields (`type`,
`message`, `suggestions`, `alternativeExplanation`); the prose itself is UI
copy, and the model keeps the one structural fact consulted by the
specification: whether a non-empty `alternativeExplanation` was assigned.
In the source, both branches guarded by `confidenceLevel <= 2` assign a
non-empty concept-keyed explanation literal (with a non-empty default for
unknown concept ids), while the branch for a low score alone only fills the
missed-question suggestions and leaves `alternativeExplanation` at its
initialised empty string, which the help modal then renders as no
alternative-explanation panel. -/
structure AdaptiveHelpContent where
  hasAlternativeExplanation : Bool
deriving DecidableEq, Repr

/-- Function `triggerAdaptiveHelp`, with the branch structure of the source:
low confidence and low score, low confidence alone, low score alone, and the
fall-through that keeps the initialised (empty) content. -/
def triggerAdaptiveHelp (confidenceLevel knowledgeCheckScore : ℚ) :
    AdaptiveHelpContent :=
  if confidenceLevel ≤ 2 ∧ knowledgeCheckScore < 1/2 then
    { hasAlternativeExplanation := true }
  else if confidenceLevel ≤ 2 then
    { hasAlternativeExplanation := true }
  else if knowledgeCheckScore < 1/2 then
    { hasAlternativeExplanation := false }
  else
    { hasAlternativeExplanation := false }

/-- React state of the main application component, restricted to the fields
read or written by the navigation gate and the analytics subsystem. -/
structure AppState where
  currentScreen : String
  currentModule : ℕ
  currentConcept : ℕ
  confidenceLevel : ℚ
  chatHistory : List ChatMessage
  knowledgeCheckAnswers : List (String × ℕ)
  showAdaptiveHelp : Bool
  adaptiveHelpContent : Option AdaptiveHelpContent
  analytics : Analytics
  progress : Progress

/-- Expression `modules[currentModule]`; out-of-range indices (which make
the source crash on a property access) are mapped to a default module and
excluded by hypothesis in every theorem below. -/
def currentModuleData (modules : List Module) (s : AppState) : Module :=
  modules.getD s.currentModule default

/-- Expression `currentModuleData?.concepts[currentConcept]`. -/
def currentConceptData (modules : List Module) (s : AppState) : Concept :=
  (currentModuleData modules s).concepts.getD s.currentConcept default

/-- Function `calculateKnowledgeCheckScore`: 1 for a concept without
knowledge checks, otherwise the fraction of checks whose recorded answer
equals the correct option index. -/
def calculateKnowledgeCheckScore (checks : List KnowledgeCheck)
    (answers : List (String × ℕ)) : ℚ :=
  if checks.length = 0 then 1
  else
    ((checks.filter (fun c => alookup answers c.id = some c.correct)).length : ℚ) /
      (checks.length : ℚ)

/-- Function `handleConceptComplete`: records the attempt with the analytics
system (which also logs a `concept_attempt` event and reruns the estimator)
and appends to the progress record.  `timeSpent` stands for the wall-clock
difference `Date.now() - conceptStartTime` of the source. -/
def handleConceptComplete (modules : List Module) (s : AppState)
    (timeSpent : ℚ) : AppState :=
  let cd := currentConceptData modules s
  let knowledgeCheckScore :=
    calculateKnowledgeCheckScore cd.knowledgeChecks s.knowledgeCheckAnswers
  let checks := cd.knowledgeChecks
  let questionsCorrect :=
    (checks.filter (fun c => alookup s.knowledgeCheckAnswers c.id = some c.correct)).length
  let analytics := s.analytics.trackConceptAttempt cd.id
    { confidence := s.confidenceLevel
      questionsCorrect := (questionsCorrect : ℚ)
      questionsTotal := (checks.length : ℚ)
      timeSpent := timeSpent
      usedChat := decide (s.chatHistory.length > 0)
      triggeredAdaptiveHelp := false }
  let progress := s.progress
  let progress :=
    { progress with
      completedConcepts := progress.completedConcepts + 1
      conceptHistory := progress.conceptHistory ++
        [{ id := cd.id, confidence := s.confidenceLevel
           knowledgeCheckScore := knowledgeCheckScore }]
      confidenceScores := progress.confidenceScores ++ [s.confidenceLevel]
      strengths :=
        if 4 ≤ s.confidenceLevel ∧ (4/5 : ℚ) ≤ knowledgeCheckScore then
          progress.strengths ++ [cd.title]
        else progress.strengths
      needsWork :=
        if s.confidenceLevel ≤ 2 ∨ knowledgeCheckScore < 1/2 then
          progress.needsWork ++ [cd.title]
        else progress.needsWork }
  { s with analytics := analytics, progress := progress }

/-- Advancement block shared verbatim by `handleNext` and the two
remediation-override button handlers: next concept in the module, else first
concept of the next module, else the `complete` screen. -/
def advanceStep (modules : List Module) (s : AppState) : AppState :=
  if s.currentConcept < (currentModuleData modules s).concepts.length - 1 then
    { s with currentConcept := s.currentConcept + 1 }
  else if s.currentModule < modules.length - 1 then
    { s with currentModule := s.currentModule + 1, currentConcept := 0 }
  else
    { s with currentScreen := "complete" }

/-- Function `handleNext`: when the learner is struggling (confidence at
most 2 or score below 0.5) it shows adaptive help and does not advance;
otherwise it records the attempt, advances, and resets the per-concept
interaction state. -/
def handleNext (modules : List Module) (s : AppState) (timeSpent : ℚ) :
    AppState :=
  let knowledgeCheckScore :=
    calculateKnowledgeCheckScore (currentConceptData modules s).knowledgeChecks
      s.knowledgeCheckAnswers
  if s.confidenceLevel ≤ 2 ∨ knowledgeCheckScore < 1/2 then
    { s with
      adaptiveHelpContent :=
        some (triggerAdaptiveHelp s.confidenceLevel knowledgeCheckScore)
      showAdaptiveHelp := true }
  else
    let s1 := handleConceptComplete modules s timeSpent
    let s2 := advanceStep modules s1
    { s2 with confidenceLevel := 3, chatHistory := [], knowledgeCheckAnswers := []
              showAdaptiveHelp := false, adaptiveHelpContent := none }

/-- Click handler of the remediation override button labelled
`I am ready - continue to next concept`: hides the help modal, records the
attempt, advances and resets the per-concept interaction state (the
`adaptiveHelpContent` field is left as is). -/
def overrideContinue (modules : List Module) (s : AppState) (timeSpent : ℚ) :
    AppState :=
  let s0 := { s with showAdaptiveHelp := false }
  let s1 := handleConceptComplete modules s0 timeSpent
  let s2 := advanceStep modules s1
  { s2 with confidenceLevel := 3, chatHistory := [], knowledgeCheckAnswers := [] }

/-- Click handler of the remediation override button labelled
`Skip anyway (not recommended)`; its body in the source is identical to the
continue override. -/
def overrideSkip (modules : List Module) (s : AppState) (timeSpent : ℚ) :
    AppState :=
  let s0 := { s with showAdaptiveHelp := false }
  let s1 := handleConceptComplete modules s0 timeSpent
  let s2 := advanceStep modules s1
  { s2 with confidenceLevel := 3, chatHistory := [], knowledgeCheckAnswers := [] }

/-- Specification-side per-attempt accuracy ratio, following the words of
the specification for the aggregator: the ratio
`questionsCorrect / questionsTotal`, treated as 1 when `questionsTotal = 0`.
Used only to compare the specified behaviour with the source behaviour. -/
def specAttemptRatio (a : ConceptAttempt) : ℚ :=
  if a.questionsTotal = 0 then 1 else a.questionsCorrect / a.questionsTotal

/-- Specification-side question accuracy: the mean of the per-attempt
specification ratios. -/
def specQuestionAccuracy (l : List ConceptAttempt) : ℚ :=
  (l.map specAttemptRatio).sum / (l.length : ℚ)

/-- Performance map reached from an empty session by a sequence of
`trackConceptAttempt` calls, each naming a concept id. -/
def buildPerfMap (seq : List (String × ConceptAttempt)) : PerfMap :=
  seq.foldl (fun m e => trackPerfMap m e.1 e.2) []

/-- Attempt history recorded for a concept id: the attempts list of its
performance entry, empty when the concept has never been attempted. -/
def recordedAttempts (a : Analytics) (conceptId : String) : List ConceptAttempt :=
  match alookup a.conceptPerformance conceptId with
  | some p => p.attempts
  | none => []

/-- Progress record installed by the component on mount. -/
def initialProgress : Progress :=
  { completedConcepts := 0, totalConcepts := 0, confidenceScores := []
    strengths := [], needsWork := [], conceptHistory := [] }

/-- Frame property of one advancement step from state `s` to state `s2`:
the per-concept interaction state is reset (confidence back to 3, chat
history and knowledge-check answers cleared) while the analytics event log,
the performance map and the recorded progress history are extended, never
reset: the old event log is a proper initial segment of the new one, the
performance entries of all other concepts are untouched, the current
concept gains exactly one recorded attempt, and the progress history gains
exactly one entry. -/
def advanceFrame (modules : List Module) (s s2 : AppState) : Prop :=
  s2.confidenceLevel = 3 ∧ s2.chatHistory = [] ∧ s2.knowledgeCheckAnswers = [] ∧
  (∃ es, s2.analytics.events = s.analytics.events ++ es) ∧
  (∀ cid, cid ≠ (currentConceptData modules s).id →
    alookup s2.analytics.conceptPerformance cid =
      alookup s.analytics.conceptPerformance cid) ∧
  (∃ att, recordedAttempts s2.analytics (currentConceptData modules s).id =
    recordedAttempts s.analytics (currentConceptData modules s).id ++ [att]) ∧
  (∃ entry, s2.progress.conceptHistory = s.progress.conceptHistory ++ [entry])

/-- Single-module, single-concept catalog with one knowledge check, used as
a concrete input for witnesses and counterexamples. -/
def oneCheckModules : List Module :=
  [{ title := "m1"
     concepts :=
       [{ id := "c1", title := "Concept one"
          knowledgeChecks :=
            [{ id := "q1", question := "pick zero", options := ["a", "b"]
               correct := 0, explanation := "zero" }] }] }]

/-- Single-module, single-concept catalog whose concept has no knowledge
checks. -/
def noCheckModules : List Module :=
  [{ title := "m1"
     concepts := [{ id := "c1", title := "Concept one", knowledgeChecks := [] }] }]

/-- Concrete component state sitting on the first concept with default
confidence 3 and the single knowledge check answered wrongly. -/
def wrongAnswerState : AppState :=
  { currentScreen := "learning", currentModule := 0, currentConcept := 0
    confidenceLevel := 3, chatHistory := [], knowledgeCheckAnswers := [("q1", 1)]
    showAdaptiveHelp := false, adaptiveHelpContent := none
    analytics := initialAnalytics, progress := initialProgress }

/-- Concrete component state sitting on the first concept with confidence 5
and the single knowledge check answered correctly. -/
def rightAnswerState : AppState :=
  { currentScreen := "learning", currentModule := 0, currentConcept := 0
    confidenceLevel := 5, chatHistory := [], knowledgeCheckAnswers := [("q1", 0)]
    showAdaptiveHelp := false, adaptiveHelpContent := none
    analytics := initialAnalytics, progress := initialProgress }

/-! ### Helper lemmas about folds and sums -/

theorem foldl_add_eq_add_sum (l : List ℚ) (s : ℚ) : l.foldl (· + ·) s = s + l.sum := by
  induction l generalizing s with
  | nil => simp
  | cons x xs ih => simp only [List.foldl_cons, List.sum_cons, ih]; ring

theorem sumConfidence_eq_sum_map (l : List ConceptAttempt) :
    sumConfidence l = (l.map (fun a => a.confidence)).sum := by
  have h : ∀ (s : ℚ), l.foldl (fun s a => s + a.confidence) s =
      s + (l.map (fun a => a.confidence)).sum := by
    induction l with
    | nil => simp
    | cons x xs ih => intro s; simp only [List.foldl_cons, List.map_cons, List.sum_cons, ih]; ring
  simpa [sumConfidence] using h 0

theorem attemptRatio_eq_num (a : ConceptAttempt) (h : a.questionsTotal ≠ 0) :
    attemptRatio a = JsNum.num (a.questionsCorrect / a.questionsTotal) := by
  simp [attemptRatio, JsNum.divRat, h]

theorem sumRatios_eq_num (l : List ConceptAttempt)
    (h : ∀ a ∈ l, a.questionsTotal ≠ 0) :
    sumRatios l =
      JsNum.num ((l.map (fun a => a.questionsCorrect / a.questionsTotal)).sum) := by
  have key : ∀ (s : ℚ), l.foldl (fun s a => s.add (attemptRatio a)) (JsNum.num s) =
      JsNum.num (s + (l.map (fun a => a.questionsCorrect / a.questionsTotal)).sum) := by
    induction l with
    | nil => simp
    | cons x xs ih =>
      intro s
      have hx : attemptRatio x = JsNum.num (x.questionsCorrect / x.questionsTotal) :=
        attemptRatio_eq_num x (h x (List.mem_cons_self x xs))
      have ih2 := fun s => ih (fun a ha => h a (List.mem_cons_of_mem x ha)) s
      have hadd : (JsNum.num s).add (JsNum.num (x.questionsCorrect / x.questionsTotal)) =
          JsNum.num (s + x.questionsCorrect / x.questionsTotal) := rfl
      simp only [List.foldl_cons, hx, hadd, ih2, List.map_cons, List.sum_cons]
      exact congrArg JsNum.num (by ring)
  simpa [sumRatios] using key 0

theorem list_sum_le_length_mul (l : List ℚ) (c : ℚ) (h : ∀ x ∈ l, x ≤ c) :
    l.sum ≤ (l.length : ℚ) * c := by
  induction l with
  | nil => simp
  | cons x xs ih =>
    have h1 : x ≤ c := h x (List.mem_cons_self x xs)
    have h2 : xs.sum ≤ (xs.length : ℚ) * c := ih (fun y hy => h y (List.mem_cons_of_mem x hy))
    simp only [List.sum_cons, List.length_cons]
    push_cast
    linarith

theorem length_mul_le_list_sum (l : List ℚ) (c : ℚ) (h : ∀ x ∈ l, c ≤ x) :
    (l.length : ℚ) * c ≤ l.sum := by
  induction l with
  | nil => simp
  | cons x xs ih =>
    have h1 : c ≤ x := h x (List.mem_cons_self x xs)
    have h2 : (xs.length : ℚ) * c ≤ xs.sum := ih (fun y hy => h y (List.mem_cons_of_mem x hy))
    simp only [List.sum_cons, List.length_cons]
    push_cast
    linarith

theorem foldl_trackConceptAttempt_attempts (l : List ConceptAttempt)
    (p : ConceptPerformance) :
    (l.foldl trackConceptAttempt p).attempts = p.attempts ++ l := by
  induction l generalizing p with
  | nil => simp
  | cons x xs ih => simp [List.foldl_cons, ih, trackConceptAttempt]


/-! ### C1: bounds on the stored aggregates -/

/-- C1 (amended): for every non-empty sequence of attempts recorded for one
concept via `trackConceptAttempt`, where each attempt has a confidence
rating in [1,5], at least one question, and at most as many correct answers
as questions, the stored `averageConfidence` lies in [1,5] and the stored
`questionAccuracy` is a finite value in [0,1].  (The original claim, which
allowed arbitrary natural `questionsCorrect` and `questionsTotal`, fails:
see the counterexample below.) -/
theorem trackConceptAttempt_aggregates_bounded (l : List ConceptAttempt)
    (hne : l ≠ [])
    (hconf : ∀ a ∈ l, 1 ≤ a.confidence ∧ a.confidence ≤ 5)
    (hq : ∀ a ∈ l, 1 ≤ a.questionsTotal ∧ 0 ≤ a.questionsCorrect ∧
      a.questionsCorrect ≤ a.questionsTotal) :
    1 ≤ (l.foldl trackConceptAttempt emptyPerf).averageConfidence ∧
    (l.foldl trackConceptAttempt emptyPerf).averageConfidence ≤ 5 ∧
    (l.foldl trackConceptAttempt emptyPerf).questionAccuracy.memUnitInterval := by
  rcases List.eq_nil_or_concat l with rfl | ⟨L, b, hcat⟩
  · exact absurd rfl hne
  rw [List.concat_eq_append] at hcat
  subst hcat
  have hsplit : List.foldl trackConceptAttempt emptyPerf (L ++ [b]) =
      trackConceptAttempt (List.foldl trackConceptAttempt emptyPerf L) b := by
    simp [List.foldl_append]
  have hatt : (List.foldl trackConceptAttempt emptyPerf L).attempts = L := by
    simpa [emptyPerf] using foldl_trackConceptAttempt_attempts L emptyPerf
  set l := L ++ [b] with hl
  have hfull : (List.foldl trackConceptAttempt emptyPerf L).attempts ++ [b] = l := by
    rw [hatt]
  have hlen : 0 < l.length := by simp [hl]
  have hlenq : (0 : ℚ) < (l.length : ℚ) := by exact_mod_cast hlen
  have havg : (List.foldl trackConceptAttempt emptyPerf (L ++ [b])).averageConfidence =
      (l.map (fun a => a.confidence)).sum / (l.length : ℚ) := by
    rw [hsplit]
    show sumConfidence ((List.foldl trackConceptAttempt emptyPerf L).attempts ++ [b]) /
        ((((List.foldl trackConceptAttempt emptyPerf L).attempts ++ [b]).length : ℕ) : ℚ) = _
    rw [hfull, sumConfidence_eq_sum_map]
  have htne : ∀ a ∈ l, a.questionsTotal ≠ 0 := by
    intro a ha
    have h1 := (hq a ha).1
    intro h0
    rw [h0] at h1
    linarith
  have hacc : (List.foldl trackConceptAttempt emptyPerf (L ++ [b])).questionAccuracy =
      JsNum.num ((l.map (fun a => a.questionsCorrect / a.questionsTotal)).sum /
        (l.length : ℚ)) := by
    rw [hsplit]
    show (sumRatios ((List.foldl trackConceptAttempt emptyPerf L).attempts ++ [b])).divq
        ((((List.foldl trackConceptAttempt emptyPerf L).attempts ++ [b]).length : ℕ) : ℚ) = _
    rw [hfull, sumRatios_eq_num l htne]
    simp [JsNum.divq, JsNum.divRat, ne_of_gt hlenq]
  refine ⟨?_, ?_, ?_⟩
  · rw [havg, le_div_iff₀ hlenq]
    have := length_mul_le_list_sum (l.map (fun a => a.confidence)) 1
      (by intro x hx; obtain ⟨a, ha, rfl⟩ := List.mem_map.1 hx; exact (hconf a ha).1)
    simp only [List.length_map] at this
    linarith
  · rw [havg, div_le_iff₀ hlenq]
    have := list_sum_le_length_mul (l.map (fun a => a.confidence)) 5
      (by intro x hx; obtain ⟨a, ha, rfl⟩ := List.mem_map.1 hx; exact (hconf a ha).2)
    simp only [List.length_map] at this
    linarith
  · rw [hacc]
    have hub := list_sum_le_length_mul (l.map (fun a => a.questionsCorrect / a.questionsTotal)) 1
      (by
        intro x hx
        obtain ⟨a, ha, rfl⟩ := List.mem_map.1 hx
        have h1 := (hq a ha).1
        have h2 := (hq a ha).2.2
        exact div_le_one_of_le₀ h2 (by linarith))
    have hlb := length_mul_le_list_sum (l.map (fun a => a.questionsCorrect / a.questionsTotal)) 0
      (by
        intro x hx
        obtain ⟨a, ha, rfl⟩ := List.mem_map.1 hx
        have h1 := (hq a ha).1
        have h2 := (hq a ha).2.1
        exact div_nonneg h2 (by linarith))
    simp only [List.length_map] at hub hlb
    constructor
    · apply div_nonneg _ (le_of_lt hlenq)
      linarith
    · rw [div_le_one hlenq]
      linarith

/-- Witness for C1: a single valid attempt (confidence 3, 1 of 2 questions
correct) yields average confidence 3 and accuracy one half. -/
theorem trackConceptAttempt_aggregates_bounded_witness :
    1 ≤ (List.foldl trackConceptAttempt emptyPerf
        [{ confidence := 3, questionsCorrect := 1, questionsTotal := 2
           timeSpent := 0, usedChat := false,
           triggeredAdaptiveHelp := false }]).averageConfidence ∧
    (List.foldl trackConceptAttempt emptyPerf
        [{ confidence := 3, questionsCorrect := 1, questionsTotal := 2
           timeSpent := 0, usedChat := false,
           triggeredAdaptiveHelp := false }]).averageConfidence ≤ 5 ∧
    (List.foldl trackConceptAttempt emptyPerf
        [{ confidence := 3, questionsCorrect := 1, questionsTotal := 2
           timeSpent := 0, usedChat := false,
           triggeredAdaptiveHelp := false }]).questionAccuracy.memUnitInterval :=
  trackConceptAttempt_aggregates_bounded _ (by simp)
    (by intro a ha; simp only [List.mem_singleton] at ha; subst ha; norm_num)
    (by intro a ha; simp only [List.mem_singleton] at ha; subst ha; norm_num)

/-- Counterexample for C1 as stated: an attempt with confidence 3 in [1,5]
and natural question counts `questionsCorrect = 2`, `questionsTotal = 1`
drives the stored `questionAccuracy` to 2, outside [0,1]. -/
theorem trackConceptAttempt_accuracy_escapes_unit_interval :
    ((1 : ℚ) ≤ 3 ∧ (3 : ℚ) ≤ 5) ∧
    (List.foldl trackConceptAttempt emptyPerf
        [{ confidence := 3, questionsCorrect := 2, questionsTotal := 1
           timeSpent := 0, usedChat := false,
           triggeredAdaptiveHelp := false }]).questionAccuracy = JsNum.num 2 ∧
    ¬ (List.foldl trackConceptAttempt emptyPerf
        [{ confidence := 3, questionsCorrect := 2, questionsTotal := 1
           timeSpent := 0, usedChat := false,
           triggeredAdaptiveHelp := false }]).questionAccuracy.memUnitInterval := by
  refine ⟨⟨by norm_num, by norm_num⟩, ?_, ?_⟩
  · norm_num [trackConceptAttempt, sumRatios, attemptRatio, JsNum.divRat,
      JsNum.add, JsNum.divq, emptyPerf]
  · norm_num [trackConceptAttempt, sumRatios, attemptRatio, JsNum.divRat,
      JsNum.add, JsNum.divq, emptyPerf, JsNum.memUnitInterval]

/-! ### C2: the per-call effect of the aggregator -/

/-- C2 (amended): every call of `trackConceptAttempt` appends the attempt,
adds `timeSpent` to `totalTime`, sets `averageConfidence` to the arithmetic
mean of all recorded confidences, sets `questionAccuracy` to the mean of the
per-attempt ratios `questionsCorrect / questionsTotal` (stated here for
attempts whose `questionsTotal` is non-zero; the source applies no special
case at `questionsTotal = 0`, where JavaScript division yields `NaN` or
`Infinity` — see the counterexample below), and increments the revisit
counter exactly when the attempt count after the append exceeds one. -/
theorem trackConceptAttempt_effect (p : ConceptPerformance) (a : ConceptAttempt) :
    (trackConceptAttempt p a).attempts = p.attempts ++ [a] ∧
    (trackConceptAttempt p a).totalTime = p.totalTime + a.timeSpent ∧
    (trackConceptAttempt p a).averageConfidence =
      ((p.attempts ++ [a]).map (fun b => b.confidence)).sum /
        (((p.attempts ++ [a]).length : ℕ) : ℚ) ∧
    ((∀ b ∈ p.attempts ++ [a], b.questionsTotal ≠ 0) →
      (trackConceptAttempt p a).questionAccuracy =
        JsNum.num
          (((p.attempts ++ [a]).map (fun b => b.questionsCorrect / b.questionsTotal)).sum /
            (((p.attempts ++ [a]).length : ℕ) : ℚ))) ∧
    (trackConceptAttempt p a).revisits =
      (if 1 < (p.attempts ++ [a]).length then p.revisits + 1 else p.revisits) := by
  have hlen : (((p.attempts ++ [a]).length : ℕ) : ℚ) ≠ 0 := by
    have h1 : (p.attempts ++ [a]).length = p.attempts.length + 1 := by simp
    rw [h1]
    exact_mod_cast Nat.succ_ne_zero p.attempts.length
  refine ⟨rfl, rfl, ?_, ?_, rfl⟩
  · show sumConfidence (p.attempts ++ [a]) / _ = _
    rw [sumConfidence_eq_sum_map]
  · intro h
    show (sumRatios (p.attempts ++ [a])).divq _ = _
    rw [sumRatios_eq_num _ h]
    simp only [JsNum.divq, JsNum.divRat, hlen, if_false, ite_false]

/-- Witness for C2: one call on a fresh record with 1 of 2 questions correct
records the attempt and stores accuracy one half. -/
theorem trackConceptAttempt_effect_witness :
    (trackConceptAttempt emptyPerf
        { confidence := 4, questionsCorrect := 1, questionsTotal := 2
          timeSpent := 7, usedChat := false,
          triggeredAdaptiveHelp := false }).attempts =
      emptyPerf.attempts ++
        [{ confidence := 4, questionsCorrect := 1, questionsTotal := 2
           timeSpent := 7, usedChat := false, triggeredAdaptiveHelp := false }] ∧
    (trackConceptAttempt emptyPerf
        { confidence := 4, questionsCorrect := 1, questionsTotal := 2
          timeSpent := 7, usedChat := false,
          triggeredAdaptiveHelp := false }).questionAccuracy = JsNum.num (1/2) := by
  have h := trackConceptAttempt_effect emptyPerf
    { confidence := 4, questionsCorrect := 1, questionsTotal := 2
      timeSpent := 7, usedChat := false, triggeredAdaptiveHelp := false }
  refine ⟨h.1, ?_⟩
  have h2 := h.2.2.2.1 (by
    intro b hb
    simp only [emptyPerf, List.nil_append, List.mem_singleton] at hb
    subst hb
    norm_num)
  rw [h2]
  norm_num [emptyPerf]

/-- Counterexample for C2 as stated: for an attempt with
`questionsTotal = 0` and `questionsCorrect = 0` the specified
treat-as-one rule makes the accuracy 1, but the source stores `NaN`
(the JavaScript value of `0/0`), not 1. -/
theorem trackConceptAttempt_zero_total_not_one :
    specQuestionAccuracy
        [{ confidence := 3, questionsCorrect := 0, questionsTotal := 0
           timeSpent := 10, usedChat := false,
           triggeredAdaptiveHelp := false }] = 1 ∧
    (trackConceptAttempt emptyPerf
        { confidence := 3, questionsCorrect := 0, questionsTotal := 0
          timeSpent := 10, usedChat := false,
          triggeredAdaptiveHelp := false }).questionAccuracy = JsNum.nan ∧
    (trackConceptAttempt emptyPerf
        { confidence := 3, questionsCorrect := 0, questionsTotal := 0
          timeSpent := 10, usedChat := false,
          triggeredAdaptiveHelp := false }).questionAccuracy ≠
      JsNum.num (specQuestionAccuracy
        [{ confidence := 3, questionsCorrect := 0, questionsTotal := 0
           timeSpent := 10, usedChat := false,
           triggeredAdaptiveHelp := false }]) := by
  refine ⟨?_, ?_, ?_⟩
  · norm_num [specQuestionAccuracy, specAttemptRatio]
  · norm_num [trackConceptAttempt, sumRatios, attemptRatio, JsNum.divRat,
      JsNum.add, JsNum.divq, emptyPerf]
  · rw [show (trackConceptAttempt emptyPerf
        { confidence := 3, questionsCorrect := 0, questionsTotal := 0
          timeSpent := 10, usedChat := false,
          triggeredAdaptiveHelp := false }).questionAccuracy = JsNum.nan from by
      norm_num [trackConceptAttempt, sumRatios, attemptRatio, JsNum.divRat,
        JsNum.add, JsNum.divq, emptyPerf]]
    simp

/-! ### C3: strengths and struggles are disjoint classifications -/

theorem updateStrengthsAndStruggles_foldl (m : PerfMap) (acc : List String × List String) :
    m.foldl
      (fun acc e =>
        if decide (4 ≤ e.2.averageConfidence) && e.2.questionAccuracy.geq (4/5) then
          (acc.1 ++ [e.1], acc.2)
        else if decide (e.2.averageConfidence ≤ 2) || e.2.questionAccuracy.ltq (1/2) then
          (acc.1, acc.2 ++ [e.1])
        else acc)
      acc =
    (acc.1 ++ (m.filter (fun e =>
        decide (4 ≤ e.2.averageConfidence) && e.2.questionAccuracy.geq (4/5))).map Prod.fst,
     acc.2 ++ (m.filter (fun e =>
        !(decide (4 ≤ e.2.averageConfidence) && e.2.questionAccuracy.geq (4/5)) &&
          (decide (e.2.averageConfidence ≤ 2) || e.2.questionAccuracy.ltq (1/2)))).map
        Prod.fst) := by
  induction m generalizing acc with
  | nil => simp
  | cons x xs ih =>
    simp only [Bool.and_eq_true, Bool.or_eq_true, decide_eq_true_eq] at ih ⊢
    by_cases h1 : 4 ≤ x.2.averageConfidence ∧ x.2.questionAccuracy.geq (4/5) = true
    · simp only [List.foldl_cons]
      rw [if_pos h1, ih]
      simp [List.filter_cons, h1]
    · have h1' : x.2.averageConfidence < 4 ∨ x.2.questionAccuracy.geq (4/5) = false := by
        rcases not_and_or.mp h1 with h | h
        · exact Or.inl (not_le.mp h)
        · exact Or.inr (Bool.eq_false_iff.mpr h)
      by_cases h2 : x.2.averageConfidence ≤ 2 ∨ x.2.questionAccuracy.ltq (1/2) = true
      · have h2' : x.2.averageConfidence ≤ 2 ∨ x.2.questionAccuracy.ltq 2⁻¹ = true := by
          rw [one_div] at h2; exact h2
        simp only [List.foldl_cons]
        rw [if_neg h1, if_pos h2, ih]
        simp [List.filter_cons, h1, h1', h2']
      · have h2' : ¬(x.2.averageConfidence ≤ 2 ∨ x.2.questionAccuracy.ltq 2⁻¹ = true) := by
          rw [one_div] at h2; exact h2
        simp only [List.foldl_cons]
        rw [if_neg h1, if_neg h2, ih]
        simp [List.filter_cons, h1, h2']

theorem updateStrengthsAndStruggles_eq_filter (m : PerfMap) :
    updateStrengthsAndStruggles m =
      ((m.filter (fun e =>
          decide (4 ≤ e.2.averageConfidence) && e.2.questionAccuracy.geq (4/5))).map Prod.fst,
       (m.filter (fun e =>
          !(decide (4 ≤ e.2.averageConfidence) && e.2.questionAccuracy.geq (4/5)) &&
            (decide (e.2.averageConfidence ≤ 2) || e.2.questionAccuracy.ltq (1/2)))).map
          Prod.fst) := by
  simpa [updateStrengthsAndStruggles] using updateStrengthsAndStruggles_foldl m ([], [])

theorem alookup_none_not_mem_keys {β : Type} (m : List (String × β)) (c : String)
    (h : alookup m c = none) : c ∉ m.map Prod.fst := by
  induction m with
  | nil => simp
  | cons x xs ih =>
    simp only [alookup] at h
    by_cases hx : x.1 = c
    · rw [if_pos hx] at h; exact absurd h (by simp)
    · rw [if_neg hx] at h
      simp only [List.map_cons, List.mem_cons]
      rintro (rfl | hmem)
      · exact hx rfl
      · exact ih h hmem

theorem areplace_map_fst {β : Type} (m : List (String × β)) (c : String) (w : β) :
    (areplace m c w).map Prod.fst = m.map Prod.fst := by
  induction m with
  | nil => simp [areplace]
  | cons x xs ih =>
    by_cases hx : x.1 = c
    · simp [areplace, hx]
    · simp [areplace, hx, ih]

theorem trackPerfMap_keys_nodup (m : PerfMap) (conceptId : String) (a : ConceptAttempt)
    (h : (m.map Prod.fst).Nodup) : ((trackPerfMap m conceptId a).map Prod.fst).Nodup := by
  unfold trackPerfMap
  cases halo : alookup m conceptId with
  | some p => rw [areplace_map_fst]; exact h
  | none =>
    rw [List.map_append]
    simp only [List.map_cons, List.map_nil]
    rw [List.nodup_append]
    refine ⟨h, List.nodup_singleton _, ?_⟩
    intro k hk hb
    simp only [List.mem_singleton] at hb
    rw [hb] at hk
    exact alookup_none_not_mem_keys m conceptId halo hk

theorem buildPerfMap_keys_nodup (seq : List (String × ConceptAttempt)) :
    ((buildPerfMap seq).map Prod.fst).Nodup := by
  have go : ∀ (s : List (String × ConceptAttempt)) (m : PerfMap),
      (m.map Prod.fst).Nodup →
      ((s.foldl (fun m e => trackPerfMap m e.1 e.2) m).map Prod.fst).Nodup := by
    intro s
    induction s with
    | nil => intro m hm; exact hm
    | cons x xs ih =>
      intro m hm
      exact ih _ (trackPerfMap_keys_nodup m x.1 x.2 hm)
  exact go seq [] (by simp)

theorem value_unique_of_nodup_keys {β : Type} (m : List (String × β))
    (h : (m.map Prod.fst).Nodup) (c : String) (p q : β)
    (hp : (c, p) ∈ m) (hq : (c, q) ∈ m) : p = q := by
  induction m with
  | nil => simp at hp
  | cons x xs ih =>
    simp only [List.map_cons, List.nodup_cons] at h
    rcases List.mem_cons.1 hp with hp1 | hp2
    · rcases List.mem_cons.1 hq with hq1 | hq2
      · rw [← hp1] at hq1; exact (Prod.mk.injEq _ _ _ _ ▸ hq1).2.symm ▸ rfl
      · exfalso
        apply h.1
        rw [← hp1]
        exact List.mem_map.2 ⟨(c, q), hq2, rfl⟩
    · rcases List.mem_cons.1 hq with hq1 | hq2
      · exfalso
        apply h.1
        rw [← hq1]
        exact List.mem_map.2 ⟨(c, p), hp2, rfl⟩
      · exact ih h.2 hp2 hq2

theorem mem_map_fst_filter {β : Type} (m : List (String × β)) (P : String × β → Bool)
    (c : String) :
    c ∈ (m.filter P).map Prod.fst ↔ ∃ p, (c, p) ∈ m ∧ P (c, p) = true := by
  constructor
  · intro h
    obtain ⟨e, he, hfst⟩ := List.mem_map.1 h
    obtain ⟨hm, hP⟩ := List.mem_filter.1 he
    refine ⟨e.2, ?_, ?_⟩
    · rw [← hfst]; simpa using hm
    · rw [← hfst]; simpa using hP
  · rintro ⟨p, hm, hP⟩
    exact List.mem_map.2 ⟨(c, p), List.mem_filter.2 ⟨hm, hP⟩, rfl⟩

/-! ### C4: the classifications of one estimator run -/

theorem analyzePatterns_fields (events : List AEvent) (m : PerfMap) (lp : LearnerProfile) :
    (analyzePatterns events m lp).pacePreference =
      some (if calculateAverageTimePerConcept m > 180000 then "slow"
        else if calculateAverageTimePerConcept m < 60000 then "fast" else "medium") ∧
    (analyzePatterns events m lp).learningStyle =
      some (if (events.filter (fun e =>
            e.eventType = "visual_interaction" ∨ e.eventType = "3d_rotation")).length >
          (events.filter (fun e => e.eventType = "chat_message")).length * 2 then "visual"
        else if (events.filter (fun e => e.eventType = "chat_message")).length >
          (events.filter (fun e =>
            e.eventType = "visual_interaction" ∨ e.eventType = "3d_rotation")).length * 2 then
          "reading"
        else "mixed") ∧
    (analyzePatterns events m lp).strengthAreas = (updateStrengthsAndStruggles m).1 ∧
    (analyzePatterns events m lp).struggleAreas = (updateStrengthsAndStruggles m).2 ∧
    (0 < (lastN 5 ((events.filter (fun e => e.eventType = "confidence_set")).map
        (fun e => e.dataLevel))).length →
      (analyzePatterns events m lp).engagementLevel =
        (if 4 ≤ (lastN 5 ((events.filter (fun e => e.eventType = "confidence_set")).map
              (fun e => e.dataLevel))).sum /
            ((lastN 5 ((events.filter (fun e => e.eventType = "confidence_set")).map
              (fun e => e.dataLevel))).length : ℚ) then "high"
          else if (lastN 5 ((events.filter (fun e => e.eventType = "confidence_set")).map
              (fun e => e.dataLevel))).sum /
            ((lastN 5 ((events.filter (fun e => e.eventType = "confidence_set")).map
              (fun e => e.dataLevel))).length : ℚ) ≤ 2 then "low"
          else "medium")) := by
  by_cases hrec : 0 < (lastN 5 ((events.filter (fun e => e.eventType = "confidence_set")).map
      (fun e => e.dataLevel))).length
  · simp [analyzePatterns, hrec, foldl_add_eq_add_sum]
  · simp [analyzePatterns, hrec, foldl_add_eq_add_sum]


/-- C3: after any sequence of tracked attempts over any set of concepts and
any run of the profile estimator, a concept id is listed among the profile
strengths exactly when its stored average confidence is at least 4 and its
stored accuracy is at least 0.8 (under the JavaScript comparison, false on
`NaN`), listed among the struggles exactly when it is not a strength and its
average confidence is at most 2 or its accuracy is below 0.5, and no concept
id is listed in both. -/
theorem strengths_struggles_disjoint (seq : List (String × ConceptAttempt))
    (events : List AEvent) (lp : LearnerProfile) (c : String) :
    (c ∈ (analyzePatterns events (buildPerfMap seq) lp).strengthAreas ↔
      ∃ p, (c, p) ∈ buildPerfMap seq ∧ 4 ≤ p.averageConfidence ∧
        p.questionAccuracy.geq (4/5) = true) ∧
    (c ∈ (analyzePatterns events (buildPerfMap seq) lp).struggleAreas ↔
      ∃ p, (c, p) ∈ buildPerfMap seq ∧
        ¬(4 ≤ p.averageConfidence ∧ p.questionAccuracy.geq (4/5) = true) ∧
        (p.averageConfidence ≤ 2 ∨ p.questionAccuracy.ltq (1/2) = true)) ∧
    ¬(c ∈ (analyzePatterns events (buildPerfMap seq) lp).strengthAreas ∧
      c ∈ (analyzePatterns events (buildPerfMap seq) lp).struggleAreas) := by
  obtain ⟨-, -, hst, hsg, -⟩ := analyzePatterns_fields events (buildPerfMap seq) lp
  rw [hst, hsg]
  have hrw := updateStrengthsAndStruggles_eq_filter (buildPerfMap seq)
  have hnd := buildPerfMap_keys_nodup seq
  have hS : c ∈ (updateStrengthsAndStruggles (buildPerfMap seq)).1 ↔
      ∃ p, (c, p) ∈ buildPerfMap seq ∧
        (decide (4 ≤ p.averageConfidence) && p.questionAccuracy.geq (4/5)) = true := by
    rw [hrw]
    exact mem_map_fst_filter _ _ c
  have hG : c ∈ (updateStrengthsAndStruggles (buildPerfMap seq)).2 ↔
      ∃ p, (c, p) ∈ buildPerfMap seq ∧
        (!(decide (4 ≤ p.averageConfidence) && p.questionAccuracy.geq (4/5)) &&
          (decide (p.averageConfidence ≤ 2) || p.questionAccuracy.ltq (1/2))) = true := by
    rw [hrw]
    exact mem_map_fst_filter _ _ c
  refine ⟨?_, ?_, ?_⟩
  · rw [hS]
    constructor
    · rintro ⟨p, hp, hcond⟩
      refine ⟨p, hp, ?_⟩
      simpa [Bool.and_eq_true, decide_eq_true_eq] using hcond
    · rintro ⟨p, hp, h1, h2⟩
      exact ⟨p, hp, by simp [Bool.and_eq_true, decide_eq_true_eq, h1, h2]⟩
  · rw [hG]
    constructor
    · rintro ⟨p, hp, hcond⟩
      rw [Bool.and_eq_true] at hcond
      refine ⟨p, hp, ?_, ?_⟩
      · intro hcontra
        have hst2 : (decide (4 ≤ p.averageConfidence) &&
            p.questionAccuracy.geq (4/5)) = true := by
          simp [Bool.and_eq_true, decide_eq_true_eq, hcontra.1, hcontra.2]
        rw [hst2] at hcond
        simp at hcond
      · have := hcond.2
        simpa [Bool.or_eq_true, decide_eq_true_eq] using this
    · rintro ⟨p, hp, hns, hor⟩
      refine ⟨p, hp, ?_⟩
      rw [Bool.and_eq_true]
      constructor
      · rw [Bool.not_eq_true']
        by_cases hc1 : 4 ≤ p.averageConfidence
        · have hc2 : p.questionAccuracy.geq (4/5) = false := by
            rcases Bool.eq_false_or_eq_true (p.questionAccuracy.geq (4/5)) with h | h
            · exact absurd ⟨hc1, h⟩ hns
            · exact h
          simp [hc2]
        · simp [hc1]
      · simpa [Bool.or_eq_true, decide_eq_true_eq] using hor
  · rintro ⟨hs, hg⟩
    rw [hS] at hs
    rw [hG] at hg
    obtain ⟨p, hp, hps⟩ := hs
    obtain ⟨q, hq, hqg⟩ := hg
    have hpq := value_unique_of_nodup_keys _ hnd c p q hp hq
    rw [← hpq, hps] at hqg
    simp at hqg


/-- C4: with at least one concept attempted and at least one logged
`confidence_set` event, one estimator run classifies pace from the mean of
per-concept `totalTime` (below 60000 ms means fast, above 180000 ms means
slow, else medium), style from event counts over the full log
(visual-interaction events, counting `visual_interaction` and `3d_rotation`,
more than twice the chat messages means visual; chat more than twice visual
means reading; else mixed), and engagement from the mean of the levels of
the last five `confidence_set` events (at least 4 high, at most 2 low, else
medium). -/
theorem analyzePatterns_classifies (events : List AEvent) (m : PerfMap)
    (lp : LearnerProfile) (hm : m ≠ [])
    (hconf : events.filter (fun e => e.eventType = "confidence_set") ≠ []) :
    (analyzePatterns events m lp).pacePreference =
      some (if (m.map (fun e => e.2.totalTime)).sum / (m.length : ℚ) < 60000 then "fast"
        else if (m.map (fun e => e.2.totalTime)).sum / (m.length : ℚ) > 180000 then "slow"
        else "medium") ∧
    (analyzePatterns events m lp).learningStyle =
      some (if (events.filter (fun e =>
            e.eventType = "visual_interaction" ∨ e.eventType = "3d_rotation")).length >
          2 * (events.filter (fun e => e.eventType = "chat_message")).length then "visual"
        else if (events.filter (fun e => e.eventType = "chat_message")).length >
          2 * (events.filter (fun e =>
            e.eventType = "visual_interaction" ∨ e.eventType = "3d_rotation")).length then
          "reading"
        else "mixed") ∧
    (analyzePatterns events m lp).engagementLevel =
      (if 4 ≤ (lastN 5 ((events.filter (fun e => e.eventType = "confidence_set")).map
            (fun e => e.dataLevel))).sum /
          ((lastN 5 ((events.filter (fun e => e.eventType = "confidence_set")).map
            (fun e => e.dataLevel))).length : ℚ) then "high"
        else if (lastN 5 ((events.filter (fun e => e.eventType = "confidence_set")).map
            (fun e => e.dataLevel))).sum /
          ((lastN 5 ((events.filter (fun e => e.eventType = "confidence_set")).map
            (fun e => e.dataLevel))).length : ℚ) ≤ 2 then "low"
        else "medium") := by
  obtain ⟨hpace, hstyle, _, _, heng⟩ := analyzePatterns_fields events m lp
  have hlen0 : m.length ≠ 0 := fun h => hm (List.length_eq_zero.mp h)
  have hAvg : calculateAverageTimePerConcept m =
      (m.map (fun e => e.2.totalTime)).sum / (m.length : ℚ) := by
    unfold calculateAverageTimePerConcept
    rw [if_neg (by simpa [List.length_map] using hlen0)]
    rw [foldl_add_eq_add_sum]
    simp [List.length_map]
  have hrec : 0 < (lastN 5 ((events.filter (fun e => e.eventType = "confidence_set")).map
      (fun e => e.dataLevel))).length := by
    have hl : 0 < ((events.filter (fun e => e.eventType = "confidence_set")).map
        (fun e => e.dataLevel)).length := by
      rw [List.length_map]
      exact List.length_pos.mpr hconf
    unfold lastN
    rw [List.length_drop, List.length_map] at *
    omega
  refine ⟨?_, ?_, ?_⟩
  · rw [hpace, hAvg]
    set t := (m.map (fun e => e.2.totalTime)).sum / (m.length : ℚ) with ht
    by_cases h1 : t < 60000
    · rw [if_neg (show ¬t > 180000 by intro h; simp only [gt_iff_lt] at h; linarith),
        if_pos h1, if_pos h1]
    · by_cases h2 : t > 180000
      · rw [if_pos h2, if_neg h1, if_pos h2]
      · rw [if_neg h2, if_neg h1, if_neg h1, if_neg h2]
  · rw [hstyle]
    set v := (events.filter (fun e =>
      e.eventType = "visual_interaction" ∨ e.eventType = "3d_rotation")).length with hv
    set ch := (events.filter (fun e => e.eventType = "chat_message")).length with hch
    exact congrArg some (if_congr (by omega) rfl (if_congr (by omega) rfl rfl))
  · exact heng hrec

/-- Witness for C4: one concept with zero total time and one confidence
event at level 5 classify as fast pace, mixed style, high engagement. -/
theorem analyzePatterns_classifies_witness :
    (analyzePatterns [{ eventType := "confidence_set", dataLevel := 5 }]
        [("c1", emptyPerf)] initialProfile).pacePreference = some "fast" ∧
    (analyzePatterns [{ eventType := "confidence_set", dataLevel := 5 }]
        [("c1", emptyPerf)] initialProfile).learningStyle = some "mixed" ∧
    (analyzePatterns [{ eventType := "confidence_set", dataLevel := 5 }]
        [("c1", emptyPerf)] initialProfile).engagementLevel = "high" := by
  obtain ⟨h1, h2, h3⟩ := analyzePatterns_classifies
    [{ eventType := "confidence_set", dataLevel := 5 }] [("c1", emptyPerf)]
    initialProfile (by simp) (by simp)
  refine ⟨h1.trans ?_, h2.trans ?_, h3.trans ?_⟩
  · norm_num [emptyPerf]
  · simp
  · simp only [List.filter, lastN]
    norm_num

/-! ### C5: the recommendation rules -/

/-- C5: the recommendation list is built by exactly three rules in order — a
high-priority review note naming the struggle areas when they are non-empty,
then a medium-priority pace message when pace is slow, then a low-priority
style message when style is visual — and is empty when the struggle areas
are empty, pace is medium and style is mixed. -/
theorem getRecommendations_rules (lp : LearnerProfile) :
    getRecommendations lp =
      (if lp.struggleAreas ≠ [] then
        [{ type := "review"
           message := "Consider reviewing: " ++ String.intercalate ", " lp.struggleAreas
           priority := "high" }]
      else []) ++
      (if lp.pacePreference = some "slow" then
        [{ type := "pace"
           message := "Take your time - depth of understanding is more important than speed"
           priority := "medium" }]
      else []) ++
      (if lp.learningStyle = some "visual" then
        [{ type := "style"
           message := "You learn well visually - spend more time with 3D models"
           priority := "low" }]
      else []) ∧
    (lp.struggleAreas = [] → lp.pacePreference = some "medium" →
      lp.learningStyle = some "mixed" → getRecommendations lp = []) := by
  constructor
  · by_cases h1 : lp.struggleAreas = [] <;>
      by_cases h2 : lp.pacePreference = some "slow" <;>
      by_cases h3 : lp.learningStyle = some "visual" <;>
      simp [getRecommendations, h1, h2, h3, List.length_pos]
  · intro h1 h2 h3
    simp [getRecommendations, h1, h2, h3]

/-- Witness for C5: a profile with no struggles, medium pace and mixed style
gets an empty recommendation list. -/
theorem getRecommendations_rules_witness :
    getRecommendations
      { learningStyle := some "mixed", pacePreference := some "medium"
        strengthAreas := [], struggleAreas := [], confidencePattern := []
        engagementLevel := "medium", preferredExplanationType := none } = [] :=
  (getRecommendations_rules _).2 rfl rfl rfl

/-! ### C8: determinism and idempotence of the estimator -/

/-- C8 (amended): the estimator is idempotent — running `analyzePatterns`
twice on the same event log and performance map yields the same profile as
running it once — and its classified fields are determined by the log and
the map alone: pace, style, strengths and struggles never depend on the
prior profile, and neither does the engagement level once at least one
`confidence_set` event has been logged.  (The original claim's "no hidden
state beyond the event log and performance map influences the result" fails:
with no logged confidence events the source keeps the prior profile's
engagement level — see the counterexample below.) -/
theorem analyzePatterns_idempotent (events : List AEvent) (m : PerfMap)
    (lp lp2 : LearnerProfile) :
    analyzePatterns events m (analyzePatterns events m lp) =
      analyzePatterns events m lp ∧
    ((analyzePatterns events m lp).pacePreference =
       (analyzePatterns events m lp2).pacePreference ∧
     (analyzePatterns events m lp).learningStyle =
       (analyzePatterns events m lp2).learningStyle ∧
     (analyzePatterns events m lp).strengthAreas =
       (analyzePatterns events m lp2).strengthAreas ∧
     (analyzePatterns events m lp).struggleAreas =
       (analyzePatterns events m lp2).struggleAreas) ∧
    (events.filter (fun e => e.eventType = "confidence_set") ≠ [] →
      (analyzePatterns events m lp).engagementLevel =
        (analyzePatterns events m lp2).engagementLevel) := by
  obtain ⟨p1, s1, st1, sg1, e1⟩ := analyzePatterns_fields events m lp
  obtain ⟨p2, s2, st2, sg2, e2⟩ := analyzePatterns_fields events m lp2
  refine ⟨?_, ⟨p1.trans p2.symm, s1.trans s2.symm, st1.trans st2.symm,
    sg1.trans sg2.symm⟩, ?_⟩
  · by_cases hrec : (lastN 5 ((events.filter (fun e => e.eventType = "confidence_set")).map
        (fun e => e.dataLevel))).length > 0
    · simp [analyzePatterns, hrec]
    · simp [analyzePatterns, hrec]
  · intro hne
    have hrec : 0 < (lastN 5 ((events.filter (fun e => e.eventType = "confidence_set")).map
        (fun e => e.dataLevel))).length := by
      have hl := List.length_pos.mpr hne
      unfold lastN
      rw [List.length_drop, List.length_map]
      omega
    rw [e1 hrec, e2 hrec]

/-- Witness for C8: on a one-event log and a one-concept map, applying the
estimator twice equals applying it once, and two runs from different prior
profiles agree on the engagement level. -/
theorem analyzePatterns_idempotent_witness :
    analyzePatterns [{ eventType := "confidence_set", dataLevel := 4 }]
        [("c1", emptyPerf)]
        (analyzePatterns [{ eventType := "confidence_set", dataLevel := 4 }]
          [("c1", emptyPerf)] initialProfile) =
      analyzePatterns [{ eventType := "confidence_set", dataLevel := 4 }]
        [("c1", emptyPerf)] initialProfile ∧
    (analyzePatterns [{ eventType := "confidence_set", dataLevel := 4 }]
        [("c1", emptyPerf)] initialProfile).engagementLevel =
      (analyzePatterns [{ eventType := "confidence_set", dataLevel := 4 }]
        [("c1", emptyPerf)]
        { initialProfile with engagementLevel := "low" }).engagementLevel := by
  have h := analyzePatterns_idempotent
    [{ eventType := "confidence_set", dataLevel := 4 }] [("c1", emptyPerf)]
    initialProfile { initialProfile with engagementLevel := "low" }
  exact ⟨h.1, h.2.2 (by simp)⟩

/-- Counterexample for C8 as stated: with an event log containing no
`confidence_set` events, the estimator keeps the prior profile's engagement
level, so two runs over the same (empty) event log and performance map from
different prior profiles yield different profiles — state beyond the log
and the map influences the result. -/
theorem analyzePatterns_depends_on_prior_profile :
    (analyzePatterns [] [] { initialProfile with
      engagementLevel := "high" }).engagementLevel = "high" ∧
    (analyzePatterns [] [] initialProfile).engagementLevel = "medium" ∧
    analyzePatterns [] [] { initialProfile with engagementLevel := "high" } ≠
      analyzePatterns [] [] initialProfile := by
  have h1 : (analyzePatterns [] [] { initialProfile with
      engagementLevel := "high" }).engagementLevel = "high" := by
    norm_num [analyzePatterns, lastN]
  have h2 : (analyzePatterns [] [] initialProfile).engagementLevel = "medium" := by
    norm_num [analyzePatterns, lastN, initialProfile]
  refine ⟨h1, h2, fun h => ?_⟩
  have h3 := congrArg LearnerProfile.engagementLevel h
  rw [h1, h2] at h3
  exact absurd h3 (by simp)

/-! ### Helper lemmas for the navigation gate -/

theorem alookup_areplace_self {β : Type} (m : List (String × β)) (c : String) (w : β)
    (h : ∃ p, alookup m c = some p) :
    alookup (areplace m c w) c = some w := by
  induction m with
  | nil => simp [alookup] at h
  | cons x xs ih =>
    by_cases hx : x.1 = c
    · simp [areplace, alookup, hx]
    · simp only [areplace, alookup, hx, if_false, if_neg hx] at h ⊢
      exact ih (by simpa [alookup, hx] using h)

theorem alookup_areplace_ne {β : Type} (m : List (String × β)) (c k : String) (w : β)
    (hk : k ≠ c) : alookup (areplace m c w) k = alookup m k := by
  induction m with
  | nil => simp [areplace]
  | cons x xs ih =>
    by_cases hx : x.1 = c
    · simp only [areplace, if_pos hx, alookup]
      rw [if_neg (by rw [hx]; exact fun hh => hk hh.symm),
        if_neg (by rw [hx]; exact fun hh => hk hh.symm)]
    · simp only [areplace, if_neg hx, alookup]
      by_cases hxk : x.1 = k
      · rw [if_pos hxk, if_pos hxk]
      · rw [if_neg hxk, if_neg hxk]
        exact ih

theorem alookup_append_single_self {β : Type} (m : List (String × β)) (c : String) (w : β)
    (h : alookup m c = none) : alookup (m ++ [(c, w)]) c = some w := by
  induction m with
  | nil => simp [alookup]
  | cons x xs ih =>
    by_cases hx : x.1 = c
    · simp [alookup, hx] at h
    · simp only [alookup, hx, if_neg hx] at h
      simpa [alookup, hx] using ih h

theorem alookup_append_single_ne {β : Type} (m : List (String × β)) (c k : String)
    (w : β) (hk : k ≠ c) : alookup (m ++ [(c, w)]) k = alookup m k := by
  induction m with
  | nil => simp [alookup, Ne.symm hk]
  | cons x xs ih =>
    by_cases hxk : x.1 = k
    · simp [alookup, hxk]
    · simp [alookup, hxk, ih]

theorem lookup_trackPerfMap_self (m : PerfMap) (conceptId : String) (a : ConceptAttempt) :
    alookup (trackPerfMap m conceptId a) conceptId =
      some (trackConceptAttempt ((alookup m conceptId).getD emptyPerf) a) := by
  unfold trackPerfMap
  cases h : alookup m conceptId with
  | some p =>
    simp only [h, Option.getD_some]
    exact alookup_areplace_self m conceptId _ ⟨p, h⟩
  | none =>
    simp only [h, Option.getD_none]
    exact alookup_append_single_self m conceptId _ h

theorem lookup_trackPerfMap_ne (m : PerfMap) (conceptId k : String) (a : ConceptAttempt)
    (hk : k ≠ conceptId) :
    alookup (trackPerfMap m conceptId a) k = alookup m k := by
  unfold trackPerfMap
  cases h : alookup m conceptId with
  | some p => exact alookup_areplace_ne m conceptId k _ hk
  | none => exact alookup_append_single_ne m conceptId k _ hk

theorem getD_attempts_eq_recordedAttempts (a : Analytics) (conceptId : String) :
    ((alookup a.conceptPerformance conceptId).getD emptyPerf).attempts =
      recordedAttempts a conceptId := by
  unfold recordedAttempts
  cases alookup a.conceptPerformance conceptId <;> simp [emptyPerf]

theorem advanceStep_frame (modules : List Module) (s : AppState) :
    (advanceStep modules s).analytics = s.analytics ∧
    (advanceStep modules s).progress = s.progress ∧
    (advanceStep modules s).confidenceLevel = s.confidenceLevel ∧
    (advanceStep modules s).chatHistory = s.chatHistory ∧
    (advanceStep modules s).knowledgeCheckAnswers = s.knowledgeCheckAnswers := by
  unfold advanceStep
  split
  · exact ⟨rfl, rfl, rfl, rfl, rfl⟩
  · split
    · exact ⟨rfl, rfl, rfl, rfl, rfl⟩
    · exact ⟨rfl, rfl, rfl, rfl, rfl⟩

theorem advanceStep_cases (modules : List Module) (s : AppState) :
    (s.currentConcept + 1 < (currentModuleData modules s).concepts.length →
      (advanceStep modules s).currentModule = s.currentModule ∧
      (advanceStep modules s).currentConcept = s.currentConcept + 1 ∧
      (advanceStep modules s).currentScreen = s.currentScreen) ∧
    (¬ s.currentConcept + 1 < (currentModuleData modules s).concepts.length →
      s.currentModule + 1 < modules.length →
      (advanceStep modules s).currentModule = s.currentModule + 1 ∧
      (advanceStep modules s).currentConcept = 0 ∧
      (advanceStep modules s).currentScreen = s.currentScreen) ∧
    (¬ s.currentConcept + 1 < (currentModuleData modules s).concepts.length →
      ¬ s.currentModule + 1 < modules.length →
      (advanceStep modules s).currentScreen = "complete" ∧
      (advanceStep modules s).currentModule = s.currentModule ∧
      (advanceStep modules s).currentConcept = s.currentConcept) := by
  refine ⟨?_, ?_, ?_⟩
  · intro h
    have hcode : s.currentConcept < (currentModuleData modules s).concepts.length - 1 := by
      omega
    unfold advanceStep
    rw [if_pos hcode]
    exact ⟨rfl, rfl, rfl⟩
  · intro h1 h2
    have hcode1 : ¬ s.currentConcept < (currentModuleData modules s).concepts.length - 1 := by
      omega
    have hcode2 : s.currentModule < modules.length - 1 := by omega
    unfold advanceStep
    rw [if_neg hcode1, if_pos hcode2]
    exact ⟨rfl, rfl, rfl⟩
  · intro h1 h2
    have hcode1 : ¬ s.currentConcept < (currentModuleData modules s).concepts.length - 1 := by
      omega
    have hcode2 : ¬ s.currentModule < modules.length - 1 := by omega
    unfold advanceStep
    rw [if_neg hcode1, if_neg hcode2]
    exact ⟨rfl, rfl, rfl⟩

/-! ### C6: the gate blocks and shows remediation -/

/-- C6 (amended): when `next` is invoked while the current confidence is at
most 2 or the knowledge-check accuracy is below 0.5, the gate never
advances — module and concept indices, screen, analytics and progress are
unchanged — and the adaptive-help remediation is shown instead; its content
carries an alternative explanation exactly when the confidence rating is at
most 2 (a low quiz score alone produces help with missed-question
suggestions and no alternative explanation — see the counterexample). -/
theorem handleNext_blocks (modules : List Module) (s : AppState) (t : ℚ)
    (h : s.confidenceLevel ≤ 2 ∨
      calculateKnowledgeCheckScore (currentConceptData modules s).knowledgeChecks
        s.knowledgeCheckAnswers < 1/2) :
    (handleNext modules s t).currentModule = s.currentModule ∧
    (handleNext modules s t).currentConcept = s.currentConcept ∧
    (handleNext modules s t).currentScreen = s.currentScreen ∧
    (handleNext modules s t).analytics = s.analytics ∧
    (handleNext modules s t).progress = s.progress ∧
    (handleNext modules s t).showAdaptiveHelp = true ∧
    (handleNext modules s t).adaptiveHelpContent =
      some (triggerAdaptiveHelp s.confidenceLevel
        (calculateKnowledgeCheckScore (currentConceptData modules s).knowledgeChecks
          s.knowledgeCheckAnswers)) ∧
    ((triggerAdaptiveHelp s.confidenceLevel
        (calculateKnowledgeCheckScore (currentConceptData modules s).knowledgeChecks
          s.knowledgeCheckAnswers)).hasAlternativeExplanation = true ↔
      s.confidenceLevel ≤ 2) := by
  have hrw : handleNext modules s t =
      { s with
        adaptiveHelpContent := some (triggerAdaptiveHelp s.confidenceLevel
          (calculateKnowledgeCheckScore (currentConceptData modules s).knowledgeChecks
            s.knowledgeCheckAnswers))
        showAdaptiveHelp := true } := by
    simp only [handleNext]
    rw [if_pos h]
  rw [hrw]
  refine ⟨rfl, rfl, rfl, rfl, rfl, rfl, rfl, ?_⟩
  by_cases hc : s.confidenceLevel ≤ 2 <;>
    by_cases hs : calculateKnowledgeCheckScore (currentConceptData modules s).knowledgeChecks
        s.knowledgeCheckAnswers < 1/2 <;>
    simp [triggerAdaptiveHelp, hc, hs]

/-- Witness for C6: on the one-check catalog with default confidence 3 and a
wrong answer, `next` keeps the concept index and shows the help modal. -/
theorem handleNext_blocks_witness :
    (handleNext oneCheckModules wrongAnswerState 0).currentConcept =
      wrongAnswerState.currentConcept ∧
    (handleNext oneCheckModules wrongAnswerState 0).showAdaptiveHelp = true := by
  have h := handleNext_blocks oneCheckModules wrongAnswerState 0
    (Or.inr (by norm_num [calculateKnowledgeCheckScore, currentConceptData,
      currentModuleData, oneCheckModules, wrongAnswerState, alookup]))
  exact ⟨h.2.1, h.2.2.2.2.2.1⟩

/-- Counterexample for C6 as stated: with confidence 3 (not low) and the
single knowledge check answered wrongly (accuracy 0), `next` blocks and
shows adaptive help, but the help content has no alternative explanation. -/
theorem handleNext_low_score_no_alternative :
    (wrongAnswerState.confidenceLevel ≤ 2 ∨
      calculateKnowledgeCheckScore
        (currentConceptData oneCheckModules wrongAnswerState).knowledgeChecks
        wrongAnswerState.knowledgeCheckAnswers < 1/2) ∧
    (handleNext oneCheckModules wrongAnswerState 0).showAdaptiveHelp = true ∧
    (handleNext oneCheckModules wrongAnswerState 0).adaptiveHelpContent =
      some { hasAlternativeExplanation := false } := by
  refine ⟨Or.inr ?_, ?_, ?_⟩
  · norm_num [calculateKnowledgeCheckScore, currentConceptData, currentModuleData,
      oneCheckModules, wrongAnswerState, alookup]
  · norm_num [handleNext, oneCheckModules, wrongAnswerState, calculateKnowledgeCheckScore,
      currentConceptData, currentModuleData, alookup]
  · norm_num [handleNext, oneCheckModules, wrongAnswerState, calculateKnowledgeCheckScore,
      currentConceptData, currentModuleData, alookup, triggerAdaptiveHelp]

/-! ### C7: the gate advances on full confidence and accuracy -/

/-- C7: when `next` is invoked with confidence 5 and knowledge-check
accuracy 1, the gate advances: the attempt is recorded for the current
concept, and — deterministically from the position in the fixed concept
list — either the concept index increments within the module, or the first
concept of the next module becomes current, or, on the last concept of the
last module, the session reaches the terminal `complete` screen. -/
theorem handleNext_advances (modules : List Module) (s : AppState) (t : ℚ)
    (hconf : s.confidenceLevel = 5)
    (hscore : calculateKnowledgeCheckScore (currentConceptData modules s).knowledgeChecks
      s.knowledgeCheckAnswers = 1) :
    (∃ p, alookup (handleNext modules s t).analytics.conceptPerformance
        (currentConceptData modules s).id = some p ∧
      p.attempts = recordedAttempts s.analytics (currentConceptData modules s).id ++
        [{ confidence := s.confidenceLevel
           questionsCorrect := (((currentConceptData modules s).knowledgeChecks.filter
             (fun c => alookup s.knowledgeCheckAnswers c.id = some c.correct)).length : ℚ)
           questionsTotal := (((currentConceptData modules s).knowledgeChecks.length : ℕ) : ℚ)
           timeSpent := t
           usedChat := decide (s.chatHistory.length > 0)
           triggeredAdaptiveHelp := false }]) ∧
    (if s.currentConcept + 1 < (currentModuleData modules s).concepts.length then
      (handleNext modules s t).currentModule = s.currentModule ∧
      (handleNext modules s t).currentConcept = s.currentConcept + 1 ∧
      (handleNext modules s t).currentScreen = s.currentScreen
    else if s.currentModule + 1 < modules.length then
      (handleNext modules s t).currentModule = s.currentModule + 1 ∧
      (handleNext modules s t).currentConcept = 0 ∧
      (handleNext modules s t).currentScreen = s.currentScreen
    else
      (handleNext modules s t).currentScreen = "complete" ∧
      (handleNext modules s t).currentModule = s.currentModule ∧
      (handleNext modules s t).currentConcept = s.currentConcept) := by
  have hns : ¬(s.confidenceLevel ≤ 2 ∨
      calculateKnowledgeCheckScore (currentConceptData modules s).knowledgeChecks
        s.knowledgeCheckAnswers < 1/2) := by
    rw [hconf, hscore]
    norm_num
  have hrw : handleNext modules s t =
      { advanceStep modules (handleConceptComplete modules s t) with
        confidenceLevel := 3, chatHistory := [], knowledgeCheckAnswers := []
        showAdaptiveHelp := false, adaptiveHelpContent := none } := by
    simp only [handleNext]
    rw [if_neg hns]
  have hana : (handleNext modules s t).analytics =
      (handleConceptComplete modules s t).analytics := by
    rw [hrw]
    exact (advanceStep_frame modules _).1
  have hperf : (handleConceptComplete modules s t).analytics.conceptPerformance =
      trackPerfMap s.analytics.conceptPerformance (currentConceptData modules s).id
        { confidence := s.confidenceLevel
          questionsCorrect := (((currentConceptData modules s).knowledgeChecks.filter
            (fun c => alookup s.knowledgeCheckAnswers c.id = some c.correct)).length : ℚ)
          questionsTotal := (((currentConceptData modules s).knowledgeChecks.length : ℕ) : ℚ)
          timeSpent := t
          usedChat := decide (s.chatHistory.length > 0)
          triggeredAdaptiveHelp := false } := rfl
  constructor
  · rw [hana, hperf]
    refine ⟨_, lookup_trackPerfMap_self _ _ _, ?_⟩
    rw [← getD_attempts_eq_recordedAttempts s.analytics]
    rfl
  · obtain ⟨hA, hB, hC⟩ := advanceStep_cases modules (handleConceptComplete modules s t)
    by_cases h1 : s.currentConcept + 1 < (currentModuleData modules s).concepts.length
    · rw [if_pos h1]
      obtain ⟨ha, hb, hc⟩ := hA h1
      exact ⟨by rw [hrw]; exact ha, by rw [hrw]; exact hb, by rw [hrw]; exact hc⟩
    · rw [if_neg h1]
      by_cases h2 : s.currentModule + 1 < modules.length
      · rw [if_pos h2]
        obtain ⟨ha, hb, hc⟩ := hB h1 h2
        exact ⟨by rw [hrw]; exact ha, by rw [hrw]; exact hb, by rw [hrw]; exact hc⟩
      · rw [if_neg h2]
        obtain ⟨ha, hb, hc⟩ := hC h1 h2
        exact ⟨by rw [hrw]; exact ha, by rw [hrw]; exact hb, by rw [hrw]; exact hc⟩

/-- Witness for C7: on the one-module, one-concept catalog with confidence 5
and the check answered correctly, `next` records the attempt for `c1` and
reaches the `complete` screen. -/
theorem handleNext_advances_witness :
    (∃ p, alookup (handleNext oneCheckModules rightAnswerState 0).analytics.conceptPerformance
        "c1" = some p) ∧
    (handleNext oneCheckModules rightAnswerState 0).currentScreen = "complete" := by
  have h := handleNext_advances oneCheckModules rightAnswerState 0 rfl
    (by norm_num [calculateKnowledgeCheckScore, currentConceptData, currentModuleData,
      oneCheckModules, rightAnswerState, alookup])
  constructor
  · obtain ⟨p, hp, _⟩ := h.1
    refine ⟨p, ?_⟩
    have hid : (currentConceptData oneCheckModules rightAnswerState).id = "c1" := by
      norm_num [currentConceptData, currentModuleData, oneCheckModules, rightAnswerState]
    rw [← hid]
    exact hp
  · have h2 := h.2
    rw [if_neg (by norm_num [currentModuleData, oneCheckModules, rightAnswerState]),
      if_neg (by norm_num [oneCheckModules, rightAnswerState])] at h2
    exact h2.1

/-! ### C9: concepts without knowledge checks are never blocked by accuracy -/

/-- C9: for a current concept whose knowledge-check list is empty, the
computed knowledge-check score is 1, the struggling condition collapses to
the confidence test alone, and `next` shows remediation exactly when the
confidence rating is at most 2. -/
theorem emptyChecks_gate (modules : List Module) (s : AppState) (t : ℚ)
    (h : (currentConceptData modules s).knowledgeChecks = []) :
    calculateKnowledgeCheckScore (currentConceptData modules s).knowledgeChecks
      s.knowledgeCheckAnswers = 1 ∧
    ((s.confidenceLevel ≤ 2 ∨
      calculateKnowledgeCheckScore (currentConceptData modules s).knowledgeChecks
        s.knowledgeCheckAnswers < 1/2) ↔ s.confidenceLevel ≤ 2) ∧
    ((handleNext modules s t).showAdaptiveHelp = true ↔ s.confidenceLevel ≤ 2) := by
  have hscore : calculateKnowledgeCheckScore (currentConceptData modules s).knowledgeChecks
      s.knowledgeCheckAnswers = 1 := by
    rw [h]
    simp [calculateKnowledgeCheckScore]
  refine ⟨hscore, ?_, ?_⟩
  · rw [hscore]
    constructor
    · rintro (hc | hlt)
      · exact hc
      · norm_num at hlt
    · exact Or.inl
  · constructor
    · intro hshow
      by_contra hc
      have hns : ¬(s.confidenceLevel ≤ 2 ∨
          calculateKnowledgeCheckScore (currentConceptData modules s).knowledgeChecks
            s.knowledgeCheckAnswers < 1/2) := by
        rw [hscore]
        push_neg
        exact ⟨not_le.mp hc, by norm_num⟩
      have hfalse : (handleNext modules s t).showAdaptiveHelp = false := by
        simp only [handleNext]
        rw [if_neg hns]
      rw [hfalse] at hshow
      exact Bool.false_ne_true hshow
    · intro hc
      have hstr : s.confidenceLevel ≤ 2 ∨
          calculateKnowledgeCheckScore (currentConceptData modules s).knowledgeChecks
            s.knowledgeCheckAnswers < 1/2 := Or.inl hc
      simp only [handleNext]
      rw [if_pos hstr]

/-- Witness for C9: on the catalog whose only concept has no knowledge
checks and a state with confidence 3, the score is 1 and no remediation is
shown. -/
theorem emptyChecks_gate_witness :
    calculateKnowledgeCheckScore
      (currentConceptData noCheckModules wrongAnswerState).knowledgeChecks
      wrongAnswerState.knowledgeCheckAnswers = 1 ∧
    ((handleNext noCheckModules wrongAnswerState 0).showAdaptiveHelp = true ↔
      wrongAnswerState.confidenceLevel ≤ 2) := by
  have h := emptyChecks_gate noCheckModules wrongAnswerState 0
    (by norm_num [currentConceptData, currentModuleData, noCheckModules, wrongAnswerState])
  exact ⟨h.1, h.2.2⟩

/-! ### C10: every advancement resets the interaction state identically -/

theorem recordedAttempts_eq_of_lookup (a : Analytics) (conceptId : String)
    (p : ConceptPerformance) (h : alookup a.conceptPerformance conceptId = some p) :
    recordedAttempts a conceptId = p.attempts := by
  unfold recordedAttempts
  rw [h]

theorem advanceFrame_core (modules : List Module) (s s2 : AppState) (t : ℚ)
    (hconf3 : s2.confidenceLevel = 3) (hchat : s2.chatHistory = [])
    (hans : s2.knowledgeCheckAnswers = [])
    (hana : s2.analytics = (handleConceptComplete modules s t).analytics)
    (hprog : s2.progress = (handleConceptComplete modules s t).progress) :
    advanceFrame modules s s2 := by
  obtain ⟨att, hperf⟩ : ∃ att,
      (handleConceptComplete modules s t).analytics.conceptPerformance =
        trackPerfMap s.analytics.conceptPerformance (currentConceptData modules s).id att :=
    ⟨_, rfl⟩
  refine ⟨hconf3, hchat, hans, ?_, ?_, ?_, ?_⟩
  · refine ⟨[{ eventType := "concept_attempt", dataLevel := 0 }], ?_⟩
    rw [hana]
    rfl
  · intro cid hcid
    rw [hana, hperf]
    exact lookup_trackPerfMap_ne _ _ _ _ hcid
  · have hl : alookup s2.analytics.conceptPerformance (currentConceptData modules s).id =
        some (trackConceptAttempt ((alookup s.analytics.conceptPerformance
          (currentConceptData modules s).id).getD emptyPerf) att) := by
      rw [hana, hperf]
      exact lookup_trackPerfMap_self _ _ _
    refine ⟨att, ?_⟩
    rw [recordedAttempts_eq_of_lookup _ _ _ hl,
      ← getD_attempts_eq_recordedAttempts s.analytics]
    rfl
  · refine ⟨{ id := (currentConceptData modules s).id,
              confidence := s.confidenceLevel,
              knowledgeCheckScore := calculateKnowledgeCheckScore
                (currentConceptData modules s).knowledgeChecks
                s.knowledgeCheckAnswers }, ?_⟩
    rw [hprog]
    rfl

/-- C10: every advancement to another concept resets the per-concept
interaction state identically and never resets the logs: a successful
`next` (invoked while the struggling condition fails) and each of the two
remediation override buttons (pressed in any state, in particular the
struggling states in which the help modal offers them) set the confidence
back to 3, clear the chat history and the knowledge-check answers, and
extend, never reset, the analytics event log, the performance map and the
recorded progress history. -/
theorem advance_resets_uniformly (modules : List Module) (s : AppState) (t : ℚ) :
    (¬(s.confidenceLevel ≤ 2 ∨
      calculateKnowledgeCheckScore (currentConceptData modules s).knowledgeChecks
        s.knowledgeCheckAnswers < 1/2) →
      advanceFrame modules s (handleNext modules s t)) ∧
    advanceFrame modules s (overrideContinue modules s t) ∧
    advanceFrame modules s (overrideSkip modules s t) := by
  refine ⟨?_, ?_, ?_⟩
  · intro hns
    have hrw : handleNext modules s t =
        { advanceStep modules (handleConceptComplete modules s t) with
          confidenceLevel := 3, chatHistory := [], knowledgeCheckAnswers := []
          showAdaptiveHelp := false, adaptiveHelpContent := none } := by
      simp only [handleNext]
      rw [if_neg hns]
    exact advanceFrame_core modules s _ t (by rw [hrw]) (by rw [hrw]) (by rw [hrw])
      (by rw [hrw]; exact (advanceStep_frame modules _).1)
      (by rw [hrw]; exact (advanceStep_frame modules _).2.1)
  · exact advanceFrame_core modules s _ t rfl rfl rfl
      ((advanceStep_frame modules _).1) ((advanceStep_frame modules _).2.1)
  · exact advanceFrame_core modules s _ t rfl rfl rfl
      ((advanceStep_frame modules _).1) ((advanceStep_frame modules _).2.1)

/-- Witness for C10: the frame property holds concretely for a successful
`next` on a non-struggling state (confidence 5, correct answer), and for
both override buttons on a struggling state (confidence 3, wrong answer),
exactly the situation in which the remediation modal offers them. -/
theorem advance_resets_uniformly_witness :
    advanceFrame oneCheckModules rightAnswerState
      (handleNext oneCheckModules rightAnswerState 0) ∧
    advanceFrame oneCheckModules wrongAnswerState
      (overrideContinue oneCheckModules wrongAnswerState 0) ∧
    advanceFrame oneCheckModules wrongAnswerState
      (overrideSkip oneCheckModules wrongAnswerState 0) := by
  have h1 := advance_resets_uniformly oneCheckModules rightAnswerState 0
  have h2 := advance_resets_uniformly oneCheckModules wrongAnswerState 0
  exact ⟨h1.1 (by norm_num [calculateKnowledgeCheckScore, currentConceptData,
      currentModuleData, oneCheckModules, rightAnswerState, alookup]),
    h2.2.1, h2.2.2⟩

end Kyorda
